import Mathlib

/-!
# usb_skeleton.c : a shallow embedding

The driver in `src/usb_skeleton.c` is embedded function by function.  Kernel
services the driver calls (allocation, `kref`, URB submission, user copies) are
modelled by small executable definitions; every outcome the kernel may choose
(an allocation failing, a submission being refused) is an explicit argument.
-/

namespace UsbSkel

/-! ## Motion decoding (`urb_complete_callback`, lines 263-288) -/

/-- The C library `strcat` on NUL-free strings: the source is appended to the
destination. -/
def strcat (dst src : List Char) : List Char := dst ++ src

/-- String literal `"UP "` (line 273). -/
def str_UP : List Char := ['U', 'P', ' ']
/-- String literal `"DOWN "` (line 275). -/
def str_DOWN : List Char := ['D', 'O', 'W', 'N', ' ']
/-- String literal `"LEFT "` (line 278). -/
def str_LEFT : List Char := ['L', 'E', 'F', 'T', ' ']
/-- String literal `"RIGHT "` (line 280). -/
def str_RIGHT : List Char := ['R', 'I', 'G', 'H', 'T', ' ']

/-- Lines 267-280: the local `direction`, starting empty, after the two
`if / else if` chains on `vertical` and `horizontal`. -/
def direction_of (horizontal vertical : Nat) : List Char :=
  let direction : List Char := []
  let direction :=
    if vertical > 128 then strcat direction str_UP
    else if vertical > 0 then strcat direction str_DOWN
    else direction
  let direction :=
    if horizontal > 128 then strcat direction str_LEFT
    else if horizontal > 0 then strcat direction str_RIGHT
    else direction
  direction

/-- Lines 265-280 of `urb_complete_callback`: `horizontal` is the byte at
offset 1 of the transfer buffer, `vertical` the byte at offset 2; the result is
the `direction` string handed to `printk`.  A buffer shorter than three bytes
makes the reads fall outside it, which is reported as `none`.  The
resubmission of the URB (lines 285-287) does not change the string. -/
def urb_complete_callback_direction (transfer_buffer : List Nat) : Option (List Char) :=
  match transfer_buffer[1]?, transfer_buffer[2]? with
  | some horizontal, some vertical => some (direction_of horizontal vertical)
  | _, _ => none

/-- The label `UP`. -/
def lbl_UP : List Char := ['U', 'P']
/-- The label `DOWN`. -/
def lbl_DOWN : List Char := ['D', 'O', 'W', 'N']
/-- The label `LEFT`. -/
def lbl_LEFT : List Char := ['L', 'E', 'F', 'T']
/-- The label `RIGHT`. -/
def lbl_RIGHT : List Char := ['R', 'I', 'G', 'H', 'T']

/-- Substring test: `pat` occurs as a contiguous block of `s`. -/
def is_substr (pat s : List Char) : Bool :=
  s.tails.any (fun t => pat.isPrefixOf t)

/-- Bytes needed by `direction` including the terminating NUL. -/
def direction_bytes (horizontal vertical : Nat) : Nat :=
  (direction_of horizontal vertical).length + 1

/-! ## Kernel services used by the driver -/

/-- Addresses; `0` is the C `NULL`. -/
abbrev Ptr := Nat
/-- The C null pointer. -/
def NULL : Ptr := 0

/-- Errno value `ENOMEM`. -/
def ENOMEM : Int := 12
/-- Errno value `EFAULT`. -/
def EFAULT : Int := 14
/-- Errno value `ENODEV`. -/
def ENODEV : Int := 19
/-- Errno value `EINVAL`. -/
def EINVAL : Int := 22

/-- Largest byte count the VFS hands to a `read` or `write` file operation
(`MAX_RW_COUNT`, that is `INT_MAX & PAGE_MASK` with 4 KiB pages). -/
def MAX_RW_COUNT : Nat := 0x7ffff000

/-- Conversion of an unsigned value to a C `int` (32 bits, two's complement). -/
def to_int (n : Nat) : Int :=
  if n % 2 ^ 32 < 2 ^ 31 then ((n % 2 ^ 32 : Nat) : Int) else ((n % 2 ^ 32 : Nat) : Int) - 2 ^ 32

/-- Conversion of a `size_t` to `ssize_t` (64 bits, two's complement). -/
def to_ssize (n : Nat) : Int :=
  if n % 2 ^ 64 < 2 ^ 63 then ((n % 2 ^ 64 : Nat) : Int) else ((n % 2 ^ 64 : Nat) : Int) - 2 ^ 64

/-- Conversion of a C `int` to the `u32` field `transfer_buffer_length`. -/
def to_u32 (i : Int) : Nat := (i % 2 ^ 32).toNat

/-- Ways in which an execution leaves defined behaviour instead of returning. -/
inductive Fault where
  /-- A field of the object at `NULL` is accessed. -/
  | null_deref
  /-- A field of an object that has been freed is accessed. -/
  | use_after_free
  /-- A non-`NULL` address is freed that is not a live allocation of that allocator. -/
  | bad_free
  /-- A copy reads past the end of a kernel buffer. -/
  | out_of_bounds
  deriving DecidableEq, Repr

/-- Which allocator an allocation came from. -/
inductive Kind where
  /-- Allocated with `kmalloc`, to be freed with `kfree`. -/
  | kmalloc
  /-- Allocated with `usb_buffer_alloc`, to be freed with `usb_buffer_free`. -/
  | coherent
  /-- Allocated with `usb_alloc_urb`, to be freed with `usb_free_urb`. -/
  | urb
  deriving DecidableEq, Repr

/-- The allocator state: the last address handed out and the live
allocations. -/
structure Heap where
  last : Ptr
  live : List (Ptr × Kind)

/-- A successful allocation returns a fresh address, never `NULL`, and records
it as live. -/
def Heap.alloc (h : Heap) (k : Kind) : Ptr × Heap :=
  (h.last + 1, { last := h.last + 1, live := (h.last + 1, k) :: h.live })

/-- Is `p` a live allocation of allocator `k`? -/
def Heap.is_live (h : Heap) (p : Ptr) (k : Kind) : Bool := decide ((p, k) ∈ h.live)

/-- Freeing `p` with the free routine of allocator `k`: `NULL` is ignored, a
live allocation of that allocator is released, anything else is a fault. -/
def Heap.release (h : Heap) (p : Ptr) (k : Kind) : Except Fault Heap :=
  if p = NULL then .ok h
  else if h.is_live p k then .ok { h with live := h.live.erase (p, k) }
  else .error .bad_free

/-- An allocation routine whose success is decided by the kernel (`ok`). -/
def alloc_with (ok : Bool) (k : Kind) (h : Heap) : Ptr × Heap :=
  if ok then h.alloc k else (NULL, h)

/-- Kernel `kmalloc`. -/
def kmalloc (ok : Bool) (h : Heap) : Ptr × Heap := alloc_with ok .kmalloc h
/-- Kernel `usb_buffer_alloc` (`usb_alloc_coherent`, line 25). -/
def usb_buffer_alloc (ok : Bool) (h : Heap) : Ptr × Heap := alloc_with ok .coherent h
/-- Kernel `usb_alloc_urb`. -/
def usb_alloc_urb (ok : Bool) (h : Heap) : Ptr × Heap := alloc_with ok .urb h

/-- The completion handlers the driver installs. -/
inductive Completion where
  | skel_write_bulk_callback
  | urb_complete_callback
  deriving DecidableEq, Repr

/-- Direction and type of a pipe (`usb_sndbulkpipe`, `usb_rcvbulkpipe`,
`usb_rcvintpipe`). -/
inductive PipeKind where
  | snd_bulk
  | rcv_bulk
  | rcv_int
  deriving DecidableEq, Repr

/-- A pipe: direction and type together with the endpoint address. -/
structure Pipe where
  kind : PipeKind
  endpoint : Nat
  deriving DecidableEq, Repr

/-- Flag `URB_NO_TRANSFER_DMA_MAP`. -/
def URB_NO_TRANSFER_DMA_MAP : Nat := 4

/-- The fields of `struct urb` the driver fills in. -/
structure urb where
  pipe : Pipe
  transfer_buffer : Ptr
  transfer_buffer_length : Nat
  complete : Completion
  transfer_flags : Nat
  interval : Nat
  deriving DecidableEq, Repr

/-- Source `struct usb_skel` (lines 63-79). -/
structure usb_skel where
  udev : Ptr
  interface : Ptr
  bulk_in_buffer : Ptr
  bulk_in_size : Nat
  bulk_in_endpointAddr : Nat
  bulk_out_endpointAddr : Nat
  int_in_buffer : Ptr
  int_in_size : Nat
  int_in_endpointAddr : Nat
  kref : Int
  my_urb : Ptr
  deriving DecidableEq, Repr

/-- The object `memset(dev, 0x00, sizeof (*dev))` leaves behind (line 309). -/
def usb_skel.zero : usb_skel :=
  { udev := NULL, interface := NULL, bulk_in_buffer := NULL, bulk_in_size := 0,
    bulk_in_endpointAddr := 0, bulk_out_endpointAddr := 0, int_in_buffer := NULL,
    int_in_size := 0, int_in_endpointAddr := 0, kref := 0, my_urb := NULL }

/-- Everything the driver can observe or change: the allocator, the contents of
data buffers and of `struct usb_skel` objects, the URBs the USB core holds, and
the state of the one interface the driver is bound to. -/
structure World where
  /-- Live allocations. -/
  heap : Heap
  /-- Bytes stored in the data buffer at an address. -/
  mem : Ptr → List Nat
  /-- Contents of the `struct usb_skel` at an address. -/
  skel : Ptr → usb_skel
  /-- Reference count of the URB at an address. -/
  urb_refs : Ptr → Nat
  /-- URBs accepted by `usb_submit_urb` and not yet given back. -/
  inflight : List (Ptr × urb)
  /-- Value returned by `usb_get_intfdata(interface)`. -/
  intfdata : Ptr
  /-- Does `usb_find_interface` find the interface (its minor is registered)? -/
  minor_registered : Bool
  /-- Number of calls of `usb_deregister_dev`. -/
  deregistered : Nat
  /-- Balance of `usb_get_dev` and `usb_put_dev` on the peripheral. -/
  udev_refs : Int
  /-- Number of runs of `skel_delete`. -/
  deleted : Nat
  /-- Requests made through `usb_bulk_msg`: pipe and requested length. -/
  bulk_requests : List (Pipe × Nat)

/-- A world in which nothing is allocated and no interface is bound. -/
def World.init : World :=
  { heap := { last := 0, live := [] }, mem := fun _ => [], skel := fun _ => usb_skel.zero,
    urb_refs := fun _ => 0, inflight := [], intfdata := NULL, minor_registered := false,
    deregistered := 0, udev_refs := 0, deleted := 0, bulk_requests := [] }

/-- Reading the `struct usb_skel` at `p`. -/
def World.deref (w : World) (p : Ptr) : Except Fault usb_skel :=
  if p = NULL then .error .null_deref
  else if w.heap.is_live p .kmalloc then .ok (w.skel p)
  else .error .use_after_free

/-- Writing the `struct usb_skel` at `p`. -/
def World.store (w : World) (p : Ptr) (d : usb_skel) : World :=
  { w with skel := fun q => if q = p then d else w.skel q }

/-- Writing the bytes of the data buffer at `p`. -/
def World.write_mem (w : World) (p : Ptr) (bytes : List Nat) : World :=
  { w with mem := fun q => if q = p then bytes else w.mem q }

/-- Kernel `kfree`. -/
def kfree (w : World) (p : Ptr) : Except Fault World :=
  (w.heap.release p .kmalloc).map (fun h => { w with heap := h })

/-- Kernel `usb_buffer_free` (`usb_free_coherent`, line 26). -/
def usb_buffer_free (w : World) (p : Ptr) : Except Fault World :=
  (w.heap.release p .coherent).map (fun h => { w with heap := h })

/-- Kernel `usb_free_urb`: `NULL` is ignored; otherwise one reference is
dropped and the URB is freed when none is left. -/
def usb_free_urb (w : World) (p : Ptr) : Except Fault World :=
  if p = NULL then .ok w
  else if w.heap.is_live p .urb then
    if w.urb_refs p - 1 = 0 then
      (w.heap.release p .urb).map (fun h => { w with heap := h, urb_refs := fun q => if q = p then 0 else w.urb_refs q })
    else .ok { w with urb_refs := fun q => if q = p then w.urb_refs p - 1 else w.urb_refs q }
  else .error .bad_free

/-- Kernel `usb_submit_urb`, whose return value `ret` the USB core chooses: on
`0` the core takes a reference and holds the URB until it completes. -/
def usb_submit_urb (w : World) (p : Ptr) (u : urb) (ret : Int) : Int × World :=
  if ret = 0 then
    (0, { w with inflight := (p, u) :: w.inflight,
                 urb_refs := fun q => if q = p then w.urb_refs p + 1 else w.urb_refs q })
  else (ret, w)

/-- Kernel `usb_fill_bulk_urb`: writes the fields of the URB at `p`; the
length parameter is a C `int`. -/
def usb_fill_bulk_urb (p : Ptr) (pipe : Pipe) (transfer_buffer : Ptr) (buffer_length : Int)
    (complete : Completion) : Except Fault urb :=
  if p = NULL then .error .null_deref
  else .ok { pipe := pipe, transfer_buffer := transfer_buffer,
             transfer_buffer_length := to_u32 buffer_length, complete := complete,
             transfer_flags := 0, interval := 0 }

/-- Kernel `usb_fill_int_urb`: writes the fields of the URB at `p`. -/
def usb_fill_int_urb (p : Ptr) (pipe : Pipe) (transfer_buffer : Ptr) (buffer_length : Int)
    (complete : Completion) (interval : Nat) : Except Fault urb :=
  if p = NULL then .error .null_deref
  else .ok { pipe := pipe, transfer_buffer := transfer_buffer,
             transfer_buffer_length := to_u32 buffer_length, complete := complete,
             transfer_flags := 0, interval := interval }

/-- Kernel `kref_get`: one more reference on the device at `dev`. -/
def kref_get (w : World) (dev : Ptr) : Except Fault World :=
  (w.deref dev).map (fun d => w.store dev { d with kref := d.kref + 1 })

/-- Kernel `kref_put`: one reference less on the device at `dev`; `release`
runs when the count has become zero. -/
def kref_put (w : World) (dev : Ptr) (release : World → Ptr → Except Fault World) :
    Except Fault World :=
  match w.deref dev with
  | .error e => .error e
  | .ok d =>
    if d.kref - 1 = 0 then release (w.store dev { d with kref := d.kref - 1 }) dev
    else .ok (w.store dev { d with kref := d.kref - 1 })

/-! ## The driver -/

/-- Source `skel_delete` (lines 84-91). -/
def skel_delete (w : World) (dev : Ptr) : Except Fault World :=
  match w.deref dev with
  | .error e => .error e
  | .ok d =>
    -- usb_put_dev(dev->udev)
    let w := { w with udev_refs := w.udev_refs - 1 }
    -- kfree (dev->bulk_in_buffer)
    match kfree w d.bulk_in_buffer with
    | .error e => .error e
    | .ok w =>
      -- kfree (dev)
      match kfree w dev with
      | .error e => .error e
      | .ok w => .ok { w with deleted := w.deleted + 1 }

/-- The part of `struct file` the driver uses. -/
structure file where
  private_data : Ptr
  deriving DecidableEq, Repr

/-- Source `skel_open` (lines 93-124): the return value, the world, and the
`struct file` afterwards. -/
def skel_open (w : World) (f : file) : Except Fault (Int × World × file) :=
  let retval : Int := 0
  -- interface = usb_find_interface(&skel_driver, subminor)
  if w.minor_registered = false then .ok (-ENODEV, w, f)
  else
    -- dev = usb_get_intfdata(interface)
    let dev := w.intfdata
    if dev = NULL then .ok (-ENODEV, w, f)
    else
      match kref_get w dev with
      | .error e => .error e
      | .ok w => .ok (retval, w, { f with private_data := dev })

/-- Source `skel_release` (lines 126-137). -/
def skel_release (w : World) (f : file) : Except Fault (Int × World) :=
  let dev := f.private_data
  if dev = NULL then .ok (-ENODEV, w)
  else
    match kref_put w dev skel_delete with
    | .error e => .error e
    | .ok w => .ok (0, w)

/-- Source `skel_disconnect` (lines 442-466). -/
def skel_disconnect (w : World) : Except Fault World :=
  -- dev = usb_get_intfdata(interface); usb_set_intfdata(interface, NULL)
  let dev := w.intfdata
  let w := { w with intfdata := NULL }
  -- usb_deregister_dev(interface, &skel_class)
  let w := { w with minor_registered := false, deregistered := w.deregistered + 1 }
  kref_put w dev skel_delete

/-- The fields of `struct usb_endpoint_descriptor` read by `skel_probe`. -/
structure usb_endpoint_descriptor where
  bEndpointAddress : Nat
  bmAttributes : Nat
  wMaxPacketSize : Nat
  bInterval : Nat
  deriving DecidableEq, Repr

/-- Mask `USB_ENDPOINT_XFERTYPE_MASK`. -/
def USB_ENDPOINT_XFERTYPE_MASK : Nat := 3
/-- Transfer type `USB_ENDPOINT_XFER_INT`. -/
def USB_ENDPOINT_XFER_INT : Nat := 3

/-- What the kernel decides during one call of `skel_probe`; `i` is the index
of the endpoint being set up. -/
structure ProbeEnv where
  /-- Does `kmalloc(sizeof(struct usb_skel))` succeed (line 304)? -/
  dev_alloc : Bool
  /-- Does `kmalloc(buffer_size)` succeed for endpoint `i` (line 356)? -/
  int_buffer_alloc : Nat → Bool
  /-- Does `usb_alloc_urb` succeed for endpoint `i` (line 363)? -/
  urb_alloc : Nat → Bool
  /-- Return value of `usb_submit_urb` for endpoint `i` (line 374). -/
  submit : Nat → Int
  /-- Return value of `usb_register_dev` (line 421). -/
  register_dev : Int

/-- The loop of `skel_probe` over the endpoints (lines 341-402), from endpoint
number `i` on.  The result holds: whether the loop left through `goto error`,
the local `retval`, and the world. -/
def skel_probe_endpoints (env : ProbeEnv) (dev : Ptr) :
    List usb_endpoint_descriptor → Nat → Int → World → Except Fault (Bool × Int × World)
  | [], _, retval, w => .ok (false, retval, w)
  | endpoint :: rest, i, retval, w =>
    let the_end := endpoint.bmAttributes &&& USB_ENDPOINT_XFERTYPE_MASK
    if the_end = USB_ENDPOINT_XFER_INT then
      match w.deref dev with
      | .error e => .error e
      | .ok d =>
        let buffer_size := endpoint.wMaxPacketSize
        -- dev->int_in_buffer = kmalloc(buffer_size, GFP_KERNEL)
        let a := kmalloc (env.int_buffer_alloc i) w.heap
        let d := { d with int_in_size := buffer_size,
                          int_in_endpointAddr := endpoint.bEndpointAddress,
                          int_in_buffer := a.1 }
        let w := ({ w with heap := a.2 }).store dev d
        if d.int_in_buffer = NULL then .ok (true, retval, w)
        else
          -- dev->my_urb = usb_alloc_urb(0, GFP_KERNEL)
          let u := usb_alloc_urb (env.urb_alloc i) w.heap
          let d := { d with my_urb := u.1 }
          let w := ({ w with heap := u.2,
                             urb_refs := fun q => if q = u.1 then 1 else w.urb_refs q }).store dev d
          match usb_fill_int_urb d.my_urb { kind := .rcv_int, endpoint := endpoint.bEndpointAddress }
              d.int_in_buffer (to_int d.int_in_size) .urb_complete_callback endpoint.bInterval with
          | .error e => .error e
          | .ok desc =>
            -- retval = usb_submit_urb(dev->my_urb, GFP_KERNEL)
            let r := usb_submit_urb w d.my_urb desc (env.submit i)
            skel_probe_endpoints env dev rest (i + 1) r.1 r.2
    else skel_probe_endpoints env dev rest (i + 1) retval w

/-- Label `error:` of `skel_probe` (lines 433-436) for a non-`NULL` `dev`. -/
def skel_probe_error (w : World) (dev : Ptr) (retval : Int) : Except Fault (Int × World) :=
  match kref_put w dev skel_delete with
  | .error e => .error e
  | .ok w => .ok (retval, w)

/-- Source `skel_probe` (lines 292-437) on an interface with the given endpoint
descriptors, whose peripheral is `udev`. -/
def skel_probe (env : ProbeEnv) (endpoints : List usb_endpoint_descriptor)
    (interface udev : Ptr) (w : World) : Except Fault (Int × World) :=
  let retval : Int := -ENOMEM
  -- dev = kmalloc(sizeof(struct usb_skel), GFP_KERNEL)
  let a := kmalloc env.dev_alloc w.heap
  let dev := a.1
  let w := { w with heap := a.2 }
  if dev = NULL then .ok (retval, w)
  else
    -- memset, kref_init, usb_get_dev, dev->interface = interface
    let w := w.store dev { usb_skel.zero with kref := 1, udev := udev, interface := interface }
    let w := { w with udev_refs := w.udev_refs + 1 }
    match skel_probe_endpoints env dev endpoints 0 retval w with
    | .error e => .error e
    | .ok (true, retval, w) => skel_probe_error w dev retval
    | .ok (false, _, w) =>
      -- usb_set_intfdata(interface, dev)
      let w := { w with intfdata := dev }
      -- retval = usb_register_dev(interface, &skel_class)
      let retval := env.register_dev
      if retval ≠ 0 then
        -- usb_set_intfdata(interface, NULL)
        skel_probe_error { w with intfdata := NULL } dev retval
      else
        .ok (0, { w with minor_registered := true })

/-- What the kernel decides during one call of `skel_write`. -/
structure WriteEnv where
  /-- Does `usb_alloc_urb` succeed (line 198)? -/
  urb_alloc : Bool
  /-- Does `usb_buffer_alloc` succeed (line 204)? -/
  buf_alloc : Bool
  /-- Return value of `usb_submit_urb` (line 223). -/
  submit : Int

/-- Kernel `copy_from_user`: `user_buffer` holds the bytes readable at the
caller's address; asking for more than that faults (`none`). -/
def copy_from_user (user_buffer : List Nat) (count : Nat) : Option (List Nat) :=
  if count ≤ user_buffer.length then some (user_buffer.take count) else none

/-- Label `error:` of `skel_write` (lines 235-239). -/
def skel_write_error (w : World) (dev urb buf : Ptr) (retval : Int) :
    Except Fault (Int × World) :=
  -- the arguments dev->udev and urb->transfer_dma are read first
  match w.deref dev with
  | .error e => .error e
  | .ok _ =>
    if urb = NULL then .error .null_deref
    else
      -- usb_buffer_free(dev->udev, count, buf, urb->transfer_dma)
      match usb_buffer_free w buf with
      | .error e => .error e
      | .ok w =>
        -- usb_free_urb(urb)
        match usb_free_urb w urb with
        | .error e => .error e
        | .ok w =>
          -- kfree(buf)
          match kfree w buf with
          | .error e => .error e
          | .ok w => .ok (retval, w)

/-- Source `skel_write` (lines 184-240): the return value and the world
afterwards. -/
def skel_write (env : WriteEnv) (w : World) (f : file) (user_buffer : List Nat) (count : Nat) :
    Except Fault (Int × World) :=
  let dev := f.private_data
  if count = 0 then .ok (to_ssize count, w)
  else
    -- urb = usb_alloc_urb(0, GFP_KERNEL)
    let a := usb_alloc_urb env.urb_alloc w.heap
    let urb := a.1
    let w := { w with heap := a.2, urb_refs := fun q => if q = a.1 then 1 else w.urb_refs q }
    if urb = NULL then skel_write_error w dev urb NULL (-ENOMEM)
    else
      match w.deref dev with
      | .error e => .error e
      | .ok d =>
        -- buf = usb_buffer_alloc(dev->udev, count, GFP_KERNEL, &urb->transfer_dma)
        let b := usb_buffer_alloc env.buf_alloc w.heap
        let buf := b.1
        let w := { w with heap := b.2 }
        if buf = NULL then skel_write_error w dev urb buf (-ENOMEM)
        else
          match copy_from_user user_buffer count with
          | none => skel_write_error w dev urb buf (-EFAULT)
          | some bytes =>
            let w := w.write_mem buf bytes
            match usb_fill_bulk_urb urb { kind := .snd_bulk, endpoint := d.bulk_out_endpointAddr }
                buf (to_int count) .skel_write_bulk_callback with
            | .error e => .error e
            | .ok desc =>
              let desc := { desc with transfer_flags := desc.transfer_flags ||| URB_NO_TRANSFER_DMA_MAP }
              -- retval = usb_submit_urb(urb, GFP_KERNEL)
              let r := usb_submit_urb w urb desc env.submit
              if r.1 ≠ 0 then skel_write_error r.2 dev urb buf r.1
              else
                -- usb_free_urb(urb)
                match usb_free_urb r.2 urb with
                | .error e => .error e
                | .ok w => .ok (to_ssize count, w)

/-- Source `skel_write_bulk_callback` (lines 168-182): whatever the status,
the transfer buffer of the URB is freed. -/
def skel_write_bulk_callback (w : World) (u : urb) : Except Fault World :=
  usb_buffer_free w u.transfer_buffer

/-- What the hardware decides during one `usb_bulk_msg`: the status and the
bytes it delivers. -/
structure BulkOutcome where
  status : Int
  data : List Nat

/-- Kernel `usb_bulk_msg` on an IN pipe: a negative length is refused;
otherwise at most `len` bytes arrive at the start of the buffer at `data`, and
the status is returned. -/
def usb_bulk_msg (w : World) (pipe : Pipe) (data : Ptr) (len : Int) (hw : BulkOutcome) :
    Int × World :=
  if len < 0 then (-EINVAL, w)
  else
    let got := hw.data.take len.toNat
    let w := { w with bulk_requests := (pipe, len.toNat) :: w.bulk_requests }
    (hw.status, w.write_mem data (got ++ (w.mem data).drop got.length))

/-- Kernel `copy_to_user`: `dst` holds the bytes writable at the caller's
address, `src` the kernel buffer.  Asking for more than is writable faults
(`none`); reading more than the kernel buffer holds leaves the buffer. -/
def copy_to_user (dst src : List Nat) (n : Nat) : Except Fault (Option (List Nat)) :=
  if dst.length < n then .ok none
  else if src.length < n then .error .out_of_bounds
  else .ok (some (src.take n ++ dst.drop n))

/-- Source `skel_read` (lines 139-164): the return value, the world, and the
caller's buffer afterwards. -/
def skel_read (w : World) (f : file) (buffer : List Nat) (count : Nat) (hw : BulkOutcome) :
    Except Fault (Int × World × List Nat) :=
  match w.deref f.private_data with
  | .error e => .error e
  | .ok dev =>
    let r := usb_bulk_msg w { kind := .rcv_bulk, endpoint := dev.bulk_in_endpointAddr }
      dev.bulk_in_buffer (to_int (min dev.bulk_in_size count)) hw
    let retval := r.1
    let w := r.2
    if retval = 0 then
      match copy_to_user buffer (w.mem dev.bulk_in_buffer) count with
      | .error e => .error e
      | .ok none => .ok (-EFAULT, w, buffer)
      | .ok (some buffer) => .ok (to_int count, w, buffer)
    else .ok (retval, w, buffer)

/-! ## Sessions over time -/

/-- What can happen to an attached device. -/
inductive Event where
  /-- A session opens the node: `skel_open` on a new `struct file`. -/
  | Open
  /-- The `i`-th open session is closed: `skel_release` on its `struct file`. -/
  | Release (i : Nat)
  /-- The peripheral goes away: `skel_disconnect`. -/
  | Detach
  deriving DecidableEq, Repr

/-- The world together with the sessions that are open (each the `struct file`
of a successful `skel_open` not yet released) and whether `Detach` has run. -/
structure Sys where
  world : World
  files : List file
  detached : Bool

/-- Why a sequence of events stops. -/
inductive Stop where
  /-- The event cannot happen: a release without such a session, or a second
  detach. -/
  | not_enabled
  /-- The driver left defined behaviour. -/
  | fault (f : Fault)
  deriving DecidableEq, Repr

/-- One event.  A failed `skel_open` leaves no session behind. -/
def step (s : Sys) : Event → Except Stop Sys
  | .Open =>
    match skel_open s.world { private_data := NULL } with
    | .error e => .error (.fault e)
    | .ok r =>
      if r.1 = 0 then .ok { s with world := r.2.1, files := r.2.2 :: s.files }
      else .ok { s with world := r.2.1 }
  | .Release i =>
    match s.files[i]? with
    | none => .error .not_enabled
    | some f =>
      match skel_release s.world f with
      | .error e => .error (.fault e)
      | .ok r => .ok { s with world := r.2, files := s.files.eraseIdx i }
  | .Detach =>
    if s.detached then .error .not_enabled
    else
      match skel_disconnect s.world with
      | .error e => .error (.fault e)
      | .ok w => .ok { s with world := w, detached := true }

/-- A sequence of events, stopping at the first that cannot run. -/
def run : Sys → List Event → Except Stop Sys
  | s, [] => .ok s
  | s, e :: es =>
    match step s e with
    | .error x => .error x
    | .ok s1 => run s1 es

/-- May the event happen now?  A session can always be opened; only an open
session can be released; the peripheral goes away once. -/
def enabled (s : Sys) : Event → Bool
  | .Open => true
  | .Release i => decide (i < s.files.length)
  | .Detach => !s.detached

/-- The reference count of the device at `dev`. -/
def refcount (w : World) (dev : Ptr) : Int := (w.skel dev).kref

/-- The fault an execution ended in, if any. -/
def fault_of {α : Type} : Except Fault α → Option Fault
  | .error e => some e
  | .ok _ => none

/-- The value an execution returned, if it returned. -/
def value_of {α : Type} : Except Fault α → Option α
  | .error _ => none
  | .ok a => some a

/-! ## Concrete inputs -/

/-- An interrupt-IN endpoint as a mouse reports it: address `0x81`, attributes
`3`, packet size `4`. -/
def ep_int : usb_endpoint_descriptor :=
  { bEndpointAddress := 129, bmAttributes := 3, wMaxPacketSize := 4, bInterval := 10 }

/-- A call of `skel_probe` in which the kernel grants everything. -/
def env_ok : ProbeEnv :=
  { dev_alloc := true, int_buffer_alloc := fun _ => true, urb_alloc := fun _ => true,
    submit := fun _ => 0, register_dev := 0 }

/-- A call of `skel_probe` in which only the receive-buffer allocation for the
second endpoint (index 1) fails. -/
def env_second_buffer_fails : ProbeEnv :=
  { dev_alloc := true, int_buffer_alloc := fun i => decide (i = 0), urb_alloc := fun _ => true,
    submit := fun _ => 0, register_dev := 0 }

/-- A call of `skel_write` in which the kernel grants everything. -/
def write_env_ok : WriteEnv := { urb_alloc := true, buf_alloc := true, submit := 0 }

/-- A call of `skel_write` in which `usb_alloc_urb` fails. -/
def write_env_urb_fails : WriteEnv := { urb_alloc := false, buf_alloc := true, submit := 0 }

/-- A call of `skel_write` in which `usb_buffer_alloc` fails. -/
def write_env_buf_fails : WriteEnv := { urb_alloc := true, buf_alloc := false, submit := 0 }

/-- A call of `skel_write` in which `usb_submit_urb` returns `-ENODEV`. -/
def write_env_submit_fails : WriteEnv :=
  { urb_alloc := true, buf_alloc := true, submit := -ENODEV }

/-- The world after `skel_probe` succeeded on an interface with one interrupt
endpoint. -/
def attached_world : World :=
  match skel_probe env_ok [ep_int] 100 200 World.init with
  | .ok r => r.2
  | .error _ => World.init

/-- A world whose device at address 1 has a four-byte receive buffer at
address 9 bound to bulk-in endpoint `0x82`. -/
def read_world : World :=
  (attached_world.store 1
    { attached_world.skel 1 with
      bulk_in_buffer := 9, bulk_in_size := 4, bulk_in_endpointAddr := 130 }).write_mem 9
    [0, 0, 0, 0]

/-- Source `skel_probe` followed at once by `skel_disconnect`: the return value
of the probe, the world between the two calls, and the world at the end. -/
def probe_then_disconnect (env : ProbeEnv) (endpoints : List usb_endpoint_descriptor)
    (interface udev : Ptr) (w : World) : Except Fault (Int × World × World) :=
  match skel_probe env endpoints interface udev w with
  | .error e => .error e
  | .ok r =>
    match skel_disconnect r.2 with
    | .error e => .error e
    | .ok w2 => .ok (r.1, r.2, w2)

/-! ## Predicates used in the statements -/

/-- The state a successful attach leaves: the interface maps to the live
device at `dev`, the node is registered, the count is one, no teardown has run,
and no bulk-in buffer is bound (its setup is commented out, lines 379-400). -/
def Attached (w : World) (dev : Ptr) : Prop :=
  dev ≠ NULL ∧ w.intfdata = dev ∧ w.minor_registered = true ∧
  w.heap.is_live dev .kmalloc = true ∧ refcount w dev = 1 ∧ w.deleted = 0 ∧
  (w.skel dev).bulk_in_buffer = NULL

/-- What holds of the device at `dev` after any sequence of events. -/
def Inv (dev : Ptr) (s : Sys) : Prop :=
  dev ≠ NULL ∧
  refcount s.world dev = (if s.detached then 0 else 1) + (s.files.length : Int) ∧
  s.world.deleted = (if refcount s.world dev = 0 then 1 else 0) ∧
  (refcount s.world dev ≠ 0 →
    s.world.heap.is_live dev .kmalloc = true ∧ (s.world.skel dev).bulk_in_buffer = NULL) ∧
  (s.detached = false → s.world.intfdata = dev ∧ s.world.minor_registered = true) ∧
  (s.detached = true → s.world.intfdata = NULL) ∧
  (∀ f ∈ s.files, f.private_data = dev)

/-! ### Decoding lemmas -/

/-- The direction string is the vertical label followed by the horizontal
label, each chosen by the thresholds 0 and 128. -/
theorem direction_of_eq (horizontal vertical : Nat) :
    direction_of horizontal vertical =
      (if vertical > 128 then str_UP else if vertical > 0 then str_DOWN else []) ++
      (if horizontal > 128 then str_LEFT else if horizontal > 0 then str_RIGHT else []) := by
  unfold direction_of strcat
  by_cases h1 : vertical > 128 <;> by_cases h2 : vertical > 0 <;>
    by_cases h3 : horizontal > 128 <;> by_cases h4 : horizontal > 0 <;> simp [h1, h2, h3, h4]

/-- The local array `char direction[20]` is never overrun. -/
theorem direction_fits (horizontal vertical : Nat) :
    direction_bytes horizontal vertical ≤ 20 := by
  unfold direction_bytes
  rw [direction_of_eq]
  by_cases h1 : vertical > 128 <;> by_cases h2 : vertical > 0 <;>
    by_cases h3 : horizontal > 128 <;> by_cases h4 : horizontal > 0 <;>
    simp [h1, h2, h3, h4, str_UP, str_DOWN, str_LEFT, str_RIGHT]

/-- The direction string in each of the nine combinations of ranges. -/
theorem direction_of_cases (horizontal vertical : Nat) :
    (vertical = 0 ∧ horizontal = 0 ∧ direction_of horizontal vertical = []) ∨
    (vertical = 0 ∧ 0 < horizontal ∧ horizontal ≤ 128 ∧
      direction_of horizontal vertical = str_RIGHT) ∨
    (vertical = 0 ∧ 128 < horizontal ∧ direction_of horizontal vertical = str_LEFT) ∨
    (0 < vertical ∧ vertical ≤ 128 ∧ horizontal = 0 ∧
      direction_of horizontal vertical = str_DOWN) ∨
    (0 < vertical ∧ vertical ≤ 128 ∧ 0 < horizontal ∧ horizontal ≤ 128 ∧
      direction_of horizontal vertical = str_DOWN ++ str_RIGHT) ∨
    (0 < vertical ∧ vertical ≤ 128 ∧ 128 < horizontal ∧
      direction_of horizontal vertical = str_DOWN ++ str_LEFT) ∨
    (128 < vertical ∧ horizontal = 0 ∧ direction_of horizontal vertical = str_UP) ∨
    (128 < vertical ∧ 0 < horizontal ∧ horizontal ≤ 128 ∧
      direction_of horizontal vertical = str_UP ++ str_RIGHT) ∨
    (128 < vertical ∧ 128 < horizontal ∧
      direction_of horizontal vertical = str_UP ++ str_LEFT) := by
  rw [direction_of_eq]
  rcases (show vertical = 0 ∨ (0 < vertical ∧ vertical ≤ 128) ∨ 128 < vertical by omega)
    with hv | hv | hv <;>
  rcases (show horizontal = 0 ∨ (0 < horizontal ∧ horizontal ≤ 128) ∨ 128 < horizontal by omega)
    with hh | hh | hh
  · simp [hv, hh]
  · have h1 : ¬ horizontal > 128 := by omega
    simp [hv, hh, h1]
  · have h1 : 0 < horizontal := by omega
    simp [hv, hh, h1]
  · have h1 : ¬ vertical > 128 := by omega
    simp [hv, hh, h1]
  · have h1 : ¬ vertical > 128 := by omega
    have h2 : ¬ horizontal > 128 := by omega
    simp [hv, hh, h1, h2]
  · have h1 : ¬ vertical > 128 := by omega
    have h2 : 0 < horizontal := by omega
    have h3 : ¬ horizontal ≤ 128 := by omega
    simp [hv, hh, h1, h2, h3]
  · have h1 : 0 < vertical := by omega
    have h3 : ¬ vertical ≤ 128 := by omega
    simp [hv, hh, h1, h3]
  · have h1 : 0 < vertical := by omega
    have h2 : ¬ horizontal > 128 := by omega
    have h3 : ¬ vertical ≤ 128 := by omega
    simp [hv, hh, h1, h2, h3]
  · have h1 : 0 < vertical := by omega
    have h2 : 0 < horizontal := by omega
    have h3 : ¬ vertical ≤ 128 := by omega
    have h4 : ¬ horizontal ≤ 128 := by omega
    simp [hv, hh, h1, h2, h3, h4]

/-- The callback reads its two deltas at offsets 1 and 2 of the buffer. -/
theorem urb_complete_callback_direction_cons (b0 horizontal vertical : Nat) (rest : List Nat) :
    urb_complete_callback_direction (b0 :: horizontal :: vertical :: rest) =
      some (direction_of horizontal vertical) := by
  simp [urb_complete_callback_direction]

/-! ### Lifecycle lemmas -/

/-- Reading a live device succeeds. -/
theorem deref_ok (w : World) (p : Ptr) (hp : p ≠ NULL)
    (hl : w.heap.is_live p .kmalloc = true) : w.deref p = .ok (w.skel p) := by
  simp [World.deref, hp, hl]

/-- What `kfree` leaves untouched. -/
theorem kfree_frame (w w1 : World) (p : Ptr) (h : kfree w p = .ok w1) :
    w1.intfdata = w.intfdata ∧ w1.minor_registered = w.minor_registered ∧
    w1.skel = w.skel ∧ w1.deregistered = w.deregistered ∧ w1.deleted = w.deleted := by
  unfold kfree at h
  cases hr : w.heap.release p .kmalloc with
  | error e => rw [hr] at h; cases h
  | ok h1 =>
    rw [hr] at h
    cases h
    exact ⟨rfl, rfl, rfl, rfl, rfl⟩

/-- What `skel_delete` leaves untouched, and what it counts. -/
theorem skel_delete_frame (w w1 : World) (dev : Ptr) (h : skel_delete w dev = .ok w1) :
    w1.intfdata = w.intfdata ∧ w1.minor_registered = w.minor_registered ∧
    w1.skel = w.skel ∧ w1.deregistered = w.deregistered ∧ w1.deleted = w.deleted + 1 := by
  unfold skel_delete at h
  cases hd : w.deref dev with
  | error e => rw [hd] at h; cases h
  | ok d =>
    rw [hd] at h
    simp only at h
    cases h1 : kfree { w with udev_refs := w.udev_refs - 1 } d.bulk_in_buffer with
    | error e => rw [h1] at h; cases h
    | ok wa =>
      rw [h1] at h
      simp only at h
      cases h2 : kfree wa dev with
      | error e => rw [h2] at h; cases h
      | ok wb =>
        rw [h2] at h
        simp only at h
        cases h
        obtain ⟨a1, a2, a3, a4, a5⟩ := kfree_frame _ _ _ h1
        obtain ⟨b1, b2, b3, b4, b5⟩ := kfree_frame _ _ _ h2
        simp only at a1 a2 a3 a4 a5
        refine ⟨?_, ?_, ?_, ?_, ?_⟩
        · simp [b1, a1]
        · simp [b2, a2]
        · simp [b3, a3]
        · simp [b4, a4]
        · simp [b5, a5]

/-- What `kref_put` with `skel_delete` leaves untouched. -/
theorem kref_put_frame (w w1 : World) (dev : Ptr) (h : kref_put w dev skel_delete = .ok w1) :
    w1.intfdata = w.intfdata ∧ w1.minor_registered = w.minor_registered ∧
    w1.deregistered = w.deregistered := by
  unfold kref_put at h
  cases hd : w.deref dev with
  | error e => rw [hd] at h; cases h
  | ok d =>
    rw [hd] at h
    simp only at h
    by_cases hz : d.kref - 1 = 0
    · rw [if_pos hz] at h
      obtain ⟨a1, a2, _, a4, _⟩ := skel_delete_frame _ _ _ h
      exact ⟨a1, a2, a4⟩
    · rw [if_neg hz] at h
      cases h
      exact ⟨rfl, rfl, rfl⟩

/-- Teardown of a live device without a bulk-in buffer succeeds. -/
theorem skel_delete_ok (w : World) (dev : Ptr) (hp : dev ≠ NULL)
    (hl : w.heap.is_live dev .kmalloc = true) (hb : (w.skel dev).bulk_in_buffer = NULL) :
    ∃ w1, skel_delete w dev = .ok w1 := by
  unfold skel_delete
  rw [deref_ok w dev hp hl]
  simp [kfree, Heap.release, hb, hp, hl, Except.map]

/-- Dropping one reference on a live device without a bulk-in buffer. -/
theorem kref_put_spec (w : World) (dev : Ptr) (hp : dev ≠ NULL)
    (hl : w.heap.is_live dev .kmalloc = true) (hb : (w.skel dev).bulk_in_buffer = NULL) :
    ∃ w1, kref_put w dev skel_delete = .ok w1 ∧
      refcount w1 dev = refcount w dev - 1 ∧
      w1.deleted = w.deleted + (if refcount w dev - 1 = 0 then 1 else 0) ∧
      (refcount w dev - 1 ≠ 0 →
        w1.heap = w.heap ∧ (w1.skel dev).bulk_in_buffer = NULL) := by
  unfold kref_put
  rw [deref_ok w dev hp hl]
  simp only
  by_cases hz : (w.skel dev).kref - 1 = 0
  · rw [if_pos hz]
    obtain ⟨w1, h1⟩ := skel_delete_ok (w.store dev { w.skel dev with kref := (w.skel dev).kref - 1 })
      dev hp (by simpa [World.store] using hl) (by simpa [World.store] using hb)
    obtain ⟨_, _, a3, _, a5⟩ := skel_delete_frame _ _ _ h1
    refine ⟨w1, h1, ?_, ?_, ?_⟩
    · simp [refcount, a3, World.store]
    · simp [a5, refcount, hz, World.store]
    · intro hne
      exact absurd hz hne
  · rw [if_neg hz]
    refine ⟨_, rfl, ?_, ?_, ?_⟩
    · simp [refcount, World.store]
    · simp [refcount, hz, World.store]
    · intro _
      exact ⟨rfl, by simpa [World.store] using hb⟩

/-- One more reference on a live device. -/
theorem kref_get_ok (w : World) (dev : Ptr) (hp : dev ≠ NULL)
    (hl : w.heap.is_live dev .kmalloc = true) :
    kref_get w dev = .ok (w.store dev { w.skel dev with kref := (w.skel dev).kref + 1 }) := by
  simp [kref_get, deref_ok w dev hp hl, Except.map]

/-- A failed open: the result when the interface has no mapping. -/
theorem skel_open_no_mapping (w : World) (f : file)
    (h : w.minor_registered = false ∨ w.intfdata = NULL) :
    skel_open w f = .ok (-ENODEV, w, f) := by
  unfold skel_open
  rcases h with h | h
  · simp [h]
  · by_cases hr : w.minor_registered = false
    · simp [hr]
    · simp [hr, h]

/-- A successful open: the result when the interface maps to a live device. -/
theorem skel_open_mapping (w : World) (f : file) (hr : w.minor_registered = true)
    (hp : w.intfdata ≠ NULL) (hl : w.heap.is_live w.intfdata .kmalloc = true) :
    ∃ w1, skel_open w f = .ok (0, w1, { private_data := w.intfdata }) ∧
      refcount w1 w.intfdata = refcount w w.intfdata + 1 ∧
      (w1.skel w.intfdata).bulk_in_buffer = (w.skel w.intfdata).bulk_in_buffer ∧
      w1.heap = w.heap ∧ w1.deleted = w.deleted ∧ w1.intfdata = w.intfdata ∧
      w1.minor_registered = w.minor_registered := by
  refine ⟨w.store w.intfdata { w.skel w.intfdata with kref := (w.skel w.intfdata).kref + 1 },
    ?_, ?_, ?_, rfl, rfl, rfl, rfl⟩
  · unfold skel_open
    simp [hr, hp, kref_get_ok w w.intfdata hp hl]
  · simp [refcount, World.store]
  · simp [World.store]

/-- One event keeps the invariant, never faults, and runs the teardown exactly
when it takes the count from nonzero to zero. -/
theorem step_inv (dev : Ptr) (s : Sys) (h : Inv dev s) (e : Event) :
    (∀ f, step s e ≠ .error (.fault f)) ∧
    ∀ s1, step s e = .ok s1 →
      Inv dev s1 ∧
      s1.world.deleted = s.world.deleted +
        (if refcount s1.world dev = 0 ∧ refcount s.world dev ≠ 0 then 1 else 0) := by
  obtain ⟨hp, hcnt, hdel, hlive, hatt, hdet, hfiles⟩ := h
  cases e with
  | Open =>
    by_cases hm : s.world.minor_registered = false ∨ s.world.intfdata = NULL
    · have ho := skel_open_no_mapping s.world { private_data := NULL } hm
      have hE : (-ENODEV : Int) ≠ 0 := by decide
      constructor
      · intro f hf
        simp [step, ho, hE] at hf
      · intro s1 hs1
        simp [step, ho, hE] at hs1
        subst hs1
        refine ⟨⟨hp, hcnt, hdel, hlive, hatt, hdet, hfiles⟩, ?_⟩
        simp
    · have hm1 : s.world.minor_registered = true := by
        cases hb : s.world.minor_registered
        · exact absurd (Or.inl hb) hm
        · rfl
      have hm2 : s.world.intfdata ≠ NULL := fun hn => hm (Or.inr hn)
      have hnd : s.detached = false := by
        cases hb : s.detached
        · rfl
        · exact absurd (hdet hb) hm2
      have hi : s.world.intfdata = dev := (hatt hnd).1
      have hc1 : refcount s.world dev = 1 + (s.files.length : Int) := by
        rw [hcnt, hnd]; simp
      have hc0 : refcount s.world dev ≠ 0 := by
        rw [hc1]; omega
      obtain ⟨hl, hb⟩ := hlive hc0
      obtain ⟨w1, ho, o1, o2, o3, o4, o5, o6⟩ :=
        skel_open_mapping s.world { private_data := NULL } hm1 hm2 (by rw [hi]; exact hl)
      rw [hi] at ho o1 o2 o5
      have hrc0 : refcount w1 dev ≠ 0 := by
        rw [o1, hc1]; omega
      constructor
      · intro f hf
        simp [step, ho] at hf
      · intro s1 hs1
        simp [step, ho] at hs1
        subst hs1
        refine ⟨⟨hp, ?_, ?_, ?_, ?_, ?_, ?_⟩, ?_⟩
        · simp only [o1, hc1, hnd, List.length_cons]
          push_cast
          omega
        · simp only [hrc0, if_false, o4]
          rw [hdel]
          simp [hc0]
        · intro _
          simp only
          exact ⟨by rw [o3]; exact hl, by rw [o2]; exact hb⟩
        · intro _
          simp only [o5, o6]
          exact ⟨trivial, hm1⟩
        · intro hd
          rw [hnd] at hd
          cases hd
        · intro f hf
          simp only [List.mem_cons] at hf
          rcases hf with hf | hf
          · rw [hf]
          · exact hfiles f hf
        · simp only [hrc0, false_and, if_false, o4]
          simp
  | Release i =>
    cases hg : s.files[i]? with
    | none =>
      constructor
      · intro f hf
        simp [step, hg] at hf
      · intro s1 hs1
        simp [step, hg] at hs1
    | some fl =>
      have hmem : fl ∈ s.files := List.getElem?_mem hg
      have hfl : fl.private_data = dev := hfiles fl hmem
      have hlen : 0 < s.files.length := List.length_pos_of_mem hmem
      have hil : i < s.files.length := by
        rcases List.getElem?_eq_some.mp hg with ⟨hi, _⟩
        exact hi
      have hc0 : refcount s.world dev ≠ 0 := by
        rw [hcnt]
        split <;> omega
      obtain ⟨hl, hb⟩ := hlive hc0
      obtain ⟨w1, hk, k1, k2, k3⟩ := kref_put_spec s.world dev hp hl hb
      obtain ⟨f1, f2, f3⟩ := kref_put_frame _ _ _ hk
      have hrel : skel_release s.world fl = .ok (0, w1) := by
        simp [skel_release, hfl, hp, hk]
      constructor
      · intro f hf
        simp [step, hg, hrel] at hf
      · intro s1 hs1
        simp [step, hg, hrel] at hs1
        subst hs1
        have hlen1 : ((s.files.eraseIdx i).length : Int) = (s.files.length : Int) - 1 := by
          rw [List.length_eraseIdx_of_lt hil]
          omega
        refine ⟨⟨hp, ?_, ?_, ?_, ?_, ?_, ?_⟩, ?_⟩
        · simp only [k1, hcnt, hlen1]
          omega
        · simp only [k2, k1, hdel, hc0, if_false]
          split <;> simp
        · intro hne
          simp only [k1] at hne
          obtain ⟨a, b⟩ := k3 hne
          simp only
          exact ⟨by rw [a]; exact hl, b⟩
        · intro hd
          simp only [f1, f2]
          exact hatt hd
        · intro hd
          simp only [f1]
          exact hdet hd
        · intro f hf
          exact hfiles f (List.mem_of_mem_eraseIdx hf)
        · simp only [k2, k1, hc0, ne_eq, not_false_eq_true, and_true]
  | Detach =>
    cases hd : s.detached with
    | true =>
      constructor
      · intro f hf
        simp [step, hd] at hf
      · intro s1 hs1
        simp [step, hd] at hs1
    | false =>
      obtain ⟨hi, hm⟩ := hatt hd
      have hc1 : refcount s.world dev = 1 + (s.files.length : Int) := by
        rw [hcnt, hd]; simp
      have hc0 : refcount s.world dev ≠ 0 := by
        rw [hc1]; omega
      obtain ⟨hl, hb⟩ := hlive hc0
      obtain ⟨w1, hk, k1, k2, k3⟩ := kref_put_spec
        { s.world with intfdata := NULL, minor_registered := false,
                       deregistered := s.world.deregistered + 1 } dev hp hl hb
      obtain ⟨f1, f2, f3⟩ := kref_put_frame _ _ _ hk
      have hdis : skel_disconnect s.world = .ok w1 := by
        simp only [skel_disconnect, hi]
        exact hk
      simp only [refcount] at k1 k2 k3
      constructor
      · intro f hf
        simp [step, hd, hdis] at hf
      · intro s1 hs1
        simp [step, hd, hdis] at hs1
        subst hs1
        simp only [refcount] at hc1 hc0 hdel ⊢
        refine ⟨⟨hp, ?_, ?_, ?_, ?_, ?_, ?_⟩, ?_⟩
        · simp only [refcount, k1, hc1]
          simp
        · simp only [refcount, k2, k1, hdel, hc0, if_false]
          split <;> simp
        · intro hne
          simp only [refcount, k1] at hne
          obtain ⟨a, b⟩ := k3 hne
          simp only
          exact ⟨by rw [a]; exact hl, b⟩
        · intro hx
          cases hx
        · intro _
          simpa using f1
        · exact hfiles
        · simp only [k2, k1, hc0, ne_eq, not_false_eq_true, and_true]

/-- A sequence of events keeps the invariant and never faults. -/
theorem run_inv (dev : Ptr) (es : List Event) :
    ∀ s, Inv dev s →
      (∀ f, run s es ≠ .error (.fault f)) ∧ ∀ s1, run s es = .ok s1 → Inv dev s1 := by
  induction es with
  | nil =>
    intro s h
    constructor
    · intro f hf
      simp [run] at hf
    · intro s1 hs1
      simp [run] at hs1
      subst hs1
      exact h
  | cons e es ih =>
    intro s h
    obtain ⟨hnf, hok⟩ := step_inv dev s h e
    cases hst : step s e with
    | error x =>
      constructor
      · intro f hf
        simp [run, hst] at hf
        subst hf
        exact hnf f hst
      · intro s1 hs1
        simp [run, hst] at hs1
    | ok s2 =>
      obtain ⟨hi2, _⟩ := hok s2 hst
      obtain ⟨a, b⟩ := ih s2 hi2
      constructor
      · intro f hf
        simp only [run, hst] at hf
        exact a f hf
      · intro s1 hs1
        simp only [run, hst] at hs1
        exact b s1 hs1

/-- The state right after a successful attach satisfies the invariant. -/
theorem inv_of_attached (w : World) (dev : Ptr) (h : Attached w dev) :
    Inv dev { world := w, files := [], detached := false } := by
  obtain ⟨hp, hi, hm, hl, hc, hd, hb⟩ := h
  refine ⟨hp, ?_, ?_, ?_, ?_, ?_, ?_⟩
  · simp [hc]
  · simp [hc, hd]
  · intro _
    exact ⟨hl, hb⟩
  · intro _
    exact ⟨hi, hm⟩
  · intro hx
    cases hx
  · intro f hf
    cases hf

/-- An enabled event is never refused. -/
theorem step_enabled (s : Sys) (e : Event) (h : enabled s e = true) :
    step s e ≠ .error .not_enabled := by
  cases e with
  | Open =>
    simp only [step]
    cases skel_open s.world { private_data := NULL } with
    | error x => simp
    | ok r =>
      simp only
      split <;> simp
  | Release i =>
    have hi : i < s.files.length := by simpa [enabled] using h
    simp only [step]
    rw [List.getElem?_eq_getElem hi]
    simp only
    cases skel_release s.world s.files[i] <;> simp
  | Detach =>
    have hd : s.detached = false := by simpa [enabled] using h
    simp only [step, hd]
    cases skel_disconnect s.world <;> simp

/-- What `skel_disconnect` leaves behind: no mapping. -/
theorem skel_disconnect_intfdata (w w1 : World) (h : skel_disconnect w = .ok w1) :
    w1.intfdata = NULL := by
  unfold skel_disconnect at h
  exact (kref_put_frame _ _ _ h).1

/-- No event brings a cleared mapping back. -/
theorem step_intfdata_null (s s1 : Sys) (e : Event) (h : s.world.intfdata = NULL)
    (hs : step s e = .ok s1) : s1.world.intfdata = NULL := by
  cases e with
  | Open =>
    have ho := skel_open_no_mapping s.world { private_data := NULL } (Or.inr h)
    have hE : (-ENODEV : Int) ≠ 0 := by decide
    simp [step, ho, hE] at hs
    subst hs
    exact h
  | Release i =>
    simp only [step] at hs
    cases hg : s.files[i]? with
    | none => simp [hg] at hs
    | some fl =>
      simp only [hg] at hs
      cases hr : skel_release s.world fl with
      | error x => simp [hr] at hs
      | ok r =>
        simp only [hr] at hs
        cases hs
        simp only
        unfold skel_release at hr
        by_cases hn : fl.private_data = NULL
        · simp [hn] at hr
          rw [← hr]
          exact h
        · simp only [hn, if_false] at hr
          cases hk : kref_put s.world fl.private_data skel_delete with
          | error x => simp [hk] at hr
          | ok w2 =>
            simp only [hk] at hr
            cases hr
            rw [(kref_put_frame _ _ _ hk).1]
            exact h
  | Detach =>
    simp only [step] at hs
    by_cases hd : s.detached = true
    · simp [hd] at hs
    · simp only [hd] at hs
      cases hk : skel_disconnect s.world with
      | error x => simp [hk] at hs
      | ok w2 =>
        simp [hk] at hs
        subst hs
        exact skel_disconnect_intfdata _ _ hk

/-- No sequence of events brings a cleared mapping back. -/
theorem run_intfdata_null (es : List Event) :
    ∀ s s1, s.world.intfdata = NULL → run s es = .ok s1 → s1.world.intfdata = NULL := by
  induction es with
  | nil =>
    intro s s1 h hs
    simp [run] at hs
    subst hs
    exact h
  | cons e es ih =>
    intro s s1 h hs
    cases hst : step s e with
    | error x => simp [run, hst] at hs
    | ok s2 =>
      simp only [run, hst] at hs
      exact ih s2 s1 (step_intfdata_null s s2 e h hst) hs

/-- Allocating keeps every live allocation live. -/
theorem alloc_with_live (ok : Bool) (k : Kind) (h : Heap) (p : Ptr) (k1 : Kind)
    (hl : h.is_live p k1 = true) : (alloc_with ok k h).2.is_live p k1 = true := by
  unfold alloc_with
  cases ok
  · simpa using hl
  · simp only [if_true, Heap.alloc, Heap.is_live, decide_eq_true_eq, List.mem_cons]
    right
    simpa [Heap.is_live] using hl

/-- The loop of `skel_probe` over the endpoints leaves the device allocated and
touches neither its count, nor its bulk-in buffer, nor the mapping, the node or
the teardown counter. -/
theorem skel_probe_endpoints_frame (env : ProbeEnv) (dev : Ptr) (hp : dev ≠ NULL) :
    ∀ (eps : List usb_endpoint_descriptor) (i : Nat) (retval : Int) (w : World)
      (res : Bool × Int × World),
      w.heap.is_live dev .kmalloc = true →
      skel_probe_endpoints env dev eps i retval w = .ok res →
      res.2.2.heap.is_live dev .kmalloc = true ∧
      refcount res.2.2 dev = refcount w dev ∧
      (res.2.2.skel dev).bulk_in_buffer = (w.skel dev).bulk_in_buffer ∧
      res.2.2.deleted = w.deleted ∧ res.2.2.intfdata = w.intfdata ∧
      res.2.2.minor_registered = w.minor_registered := by
  intro eps
  induction eps with
  | nil =>
    intro i retval w res hl h
    simp only [skel_probe_endpoints] at h
    cases h
    exact ⟨hl, rfl, rfl, rfl, rfl, rfl⟩
  | cons endpoint rest ih =>
    intro i retval w res hl h
    simp only [skel_probe_endpoints] at h
    by_cases hint : endpoint.bmAttributes &&& USB_ENDPOINT_XFERTYPE_MASK = USB_ENDPOINT_XFER_INT
    · simp only [hint, if_true, deref_ok w dev hp hl] at h
      by_cases hbuf : (kmalloc (env.int_buffer_alloc i) w.heap).1 = NULL
      · simp only [hbuf, if_true] at h
        cases h
        refine ⟨?_, ?_, ?_, rfl, rfl, rfl⟩
        · simpa [World.store] using alloc_with_live _ _ _ _ _ hl
        · simp [refcount, World.store]
        · simp [World.store]
      · simp only [hbuf, if_false] at h
        by_cases hurb : (usb_alloc_urb (env.urb_alloc i)
            (kmalloc (env.int_buffer_alloc i) w.heap).2).1 = NULL
        · simp [usb_fill_int_urb, hurb, World.store] at h
        · simp only [usb_fill_int_urb, hurb, if_false, World.store] at h
          have hl2 : (usb_alloc_urb (env.urb_alloc i)
              (kmalloc (env.int_buffer_alloc i) w.heap).2).2.is_live dev .kmalloc = true :=
            alloc_with_live _ _ _ _ _ (alloc_with_live _ _ _ _ _ hl)
          obtain ⟨a1, a2, a3, a4, a5, a6⟩ := ih _ _ _ res (by
            unfold usb_submit_urb
            split <;> exact hl2) h
          refine ⟨a1, ?_, ?_, ?_, ?_, ?_⟩
          · rw [a2]
            unfold usb_submit_urb
            split <;> simp [refcount]
          · rw [a3]
            unfold usb_submit_urb
            split <;> simp
          · rw [a4]
            unfold usb_submit_urb
            split <;> rfl
          · rw [a5]
            unfold usb_submit_urb
            split <;> rfl
          · rw [a6]
            unfold usb_submit_urb
            split <;> rfl
    · simp only [hint, if_false] at h
      exact ih _ _ _ res hl h

/-- A `skel_probe` that returns 0 and leaves the count at one has attached the
device: the mapping and the node exist, the device is allocated, and no
teardown has run. -/
theorem skel_probe_attached (env : ProbeEnv) (endpoints : List usb_endpoint_descriptor)
    (interface udev : Ptr) (w0 w : World)
    (hprobe : skel_probe env endpoints interface udev w0 = .ok (0, w))
    (hcount : refcount w (w0.heap.last + 1) = 1) (hnew : w0.deleted = 0) :
    Attached w (w0.heap.last + 1) := by
  have hE : (-ENOMEM : Int) ≠ 0 := by decide
  unfold skel_probe at hprobe
  cases hda : env.dev_alloc with
  | false =>
    simp [kmalloc, alloc_with, hda, hE] at hprobe
  | true =>
    have hdev : (kmalloc env.dev_alloc w0.heap).1 = w0.heap.last + 1 := by
      simp [kmalloc, alloc_with, hda, Heap.alloc]
    have hp : w0.heap.last + 1 ≠ NULL := by simp [NULL]
    simp only [hdev, hp, if_false] at hprobe
    have hl0 : (kmalloc env.dev_alloc w0.heap).2.is_live (w0.heap.last + 1) .kmalloc = true := by
      simp [kmalloc, alloc_with, hda, Heap.alloc, Heap.is_live]
    generalize hloop : skel_probe_endpoints env (w0.heap.last + 1) endpoints 0 (-ENOMEM) _ = lp
      at hprobe
    cases lp with
    | error e => simp at hprobe
    | ok res =>
      obtain ⟨a1, a2, a3, a4, a5, a6⟩ :=
        skel_probe_endpoints_frame env _ hp endpoints _ _ _ res (by simpa [World.store] using hl0)
          hloop
      simp only [refcount, World.store, if_true] at a2 a3
      simp only [World.store] at a4 a5 a6
      obtain ⟨flag, r, w2⟩ := res
      cases flag with
      | true =>
        simp only [skel_probe_error] at hprobe
        obtain ⟨w3, hk, k1, _⟩ := kref_put_spec w2 _ hp a1 (by rw [a3]; rfl)
        rw [hk] at hprobe
        simp only [Except.ok.injEq, Prod.mk.injEq] at hprobe
        obtain ⟨_, hw⟩ := hprobe
        subst hw
        rw [k1, refcount, a2] at hcount
        simp at hcount
      | false =>
        simp only at hprobe
        by_cases hreg : env.register_dev = 0
        · simp only [hreg, ne_eq, not_true_eq_false, if_false, Except.ok.injEq, Prod.mk.injEq,
            true_and] at hprobe
          subst hprobe
          refine ⟨hp, rfl, rfl, a1, ?_, ?_, ?_⟩
          · simp only [refcount]
            rw [a2]
          · simp only
            rw [a4, hnew]
          · simp only
            rw [a3]
            rfl
        · simp only [ne_eq, hreg, not_false_eq_true, if_true, skel_probe_error] at hprobe
          cases hk : kref_put { w2 with intfdata := NULL } (w0.heap.last + 1) skel_delete with
          | error e => simp [hk] at hprobe
          | ok w3 =>
            simp only [hk, Except.ok.injEq, Prod.mk.injEq] at hprobe
            exact absurd hprobe.1 hreg

/-! ### Transfer lemmas -/

/-- A byte count within the VFS bound survives the conversion to `int`. -/
theorem to_int_small (n : Nat) (h : n ≤ MAX_RW_COUNT) : to_int n = (n : Int) := by
  unfold MAX_RW_COUNT at h
  unfold to_int
  have h1 : n % 2 ^ 32 = n := Nat.mod_eq_of_lt (by omega)
  rw [h1]
  have h2 : n < 2 ^ 31 := by omega
  rw [if_pos h2]

/-- A byte count within the VFS bound survives the conversion to `ssize_t`. -/
theorem to_ssize_small (n : Nat) (h : n ≤ MAX_RW_COUNT) : to_ssize n = (n : Int) := by
  unfold MAX_RW_COUNT at h
  unfold to_ssize
  have h1 : n % 2 ^ 64 = n := Nat.mod_eq_of_lt (by omega)
  rw [h1]
  have h2 : n < 2 ^ 63 := by omega
  rw [if_pos h2]

/-- A byte count within the VFS bound survives the trip through `int` into the
`u32` length field. -/
theorem to_u32_to_int_small (n : Nat) (h : n ≤ MAX_RW_COUNT) : to_u32 (to_int n) = n := by
  rw [to_int_small n h]
  unfold MAX_RW_COUNT at h
  unfold to_u32
  omega

/-- When only `usb_buffer_alloc` fails, `skel_write` returns `-ENOMEM` and the
URB it had allocated is released again: the live allocations are as before. -/
theorem skel_write_buf_alloc_failure :
    (value_of (skel_write write_env_buf_fails attached_world { private_data := 1 } [7, 8, 9]
      3)).map (fun r => (r.1, decide (r.2.heap.live = attached_world.heap.live))) =
      some (-ENOMEM, true) := by
  decide

/-! ## Main results -/

/-- C1: after a successful attach (`skel_probe` returned 0 and the count of
the device it allocated, at address `w0.heap.last + 1`, is 1), along every finite sequence of Open, Release of a handle obtained from a
successful Open, and a single Detach, the driver never leaves defined behaviour
and every enabled event runs; the reference count equals (1 if Detach has not
run, else 0) plus the number of handles open; the teardown `skel_delete` has run
once if the count is zero and not at all otherwise, it runs exactly at the step
that takes the count from nonzero to zero, and once Detach and every matching
Release have run it has run exactly once. -/
theorem C1_refcount_lifecycle (env : ProbeEnv) (endpoints : List usb_endpoint_descriptor)
    (interface udev : Ptr) (w0 w : World)
    (hprobe : skel_probe env endpoints interface udev w0 = .ok (0, w))
    (hcount : refcount w (w0.heap.last + 1) = 1) (hnew : w0.deleted = 0)
    (es : List Event) :
    (∀ f, run { world := w, files := [], detached := false } es ≠ .error (.fault f)) ∧
    ∀ s, run { world := w, files := [], detached := false } es = .ok s →
      refcount s.world (w0.heap.last + 1) =
        (if s.detached then 0 else 1) + (s.files.length : Int) ∧
      s.world.deleted = (if refcount s.world (w0.heap.last + 1) = 0 then 1 else 0) ∧
      (s.detached = true → s.files = [] → s.world.deleted = 1) ∧
      ∀ e, enabled s e = true →
        ∃ s1, step s e = .ok s1 ∧
          s1.world.deleted = s.world.deleted +
            (if refcount s1.world (w0.heap.last + 1) = 0 ∧
                refcount s.world (w0.heap.last + 1) ≠ 0 then 1 else 0) := by
  have hA := skel_probe_attached env endpoints interface udev w0 w hprobe hcount hnew
  obtain ⟨hnf, hok⟩ := run_inv (w0.heap.last + 1) es _ (inv_of_attached w _ hA)
  refine ⟨hnf, ?_⟩
  intro s hs
  have hI := hok s hs
  obtain ⟨hp, hcnt, hdel, _, _, _, _⟩ := hI
  refine ⟨hcnt, hdel, ?_, ?_⟩
  · intro hd hf
    rw [hdel, hcnt, hd, hf]
    simp
  · intro e he
    obtain ⟨snf, sok⟩ := step_inv (w0.heap.last + 1) s (hok s hs) e
    cases hst : step s e with
    | error x =>
      cases x with
      | not_enabled => exact absurd hst (step_enabled s e he)
      | fault f => exact absurd hst (snf f)
    | ok s1 => exact ⟨s1, rfl, (sok s1 hst).2⟩

/-- C1 at the world left by `skel_probe` on an interface with one interrupt
endpoint, for the sequence Open, Detach, Release. -/
theorem C1_refcount_lifecycle_witness :
    skel_probe env_ok [ep_int] 100 200 World.init = .ok (0, attached_world) ∧
    refcount attached_world (World.init.heap.last + 1) = 1 ∧ World.init.deleted = 0 ∧
    ∀ f, run { world := attached_world, files := [], detached := false }
      [Event.Open, Event.Detach, Event.Release 0] ≠ .error (.fault f) :=
  ⟨rfl, by decide, rfl,
   (C1_refcount_lifecycle env_ok [ep_int] 100 200 World.init attached_world rfl (by decide) rfl
      [Event.Open, Event.Detach, Event.Release 0]).1⟩

/-- C2 fails on the code: `skel_probe` on an interface with one interrupt
endpoint, every kernel call succeeding, followed at once by `skel_disconnect`.
The probe returns 0, the teardown runs once and the node is deregistered once,
but the interrupt receive buffer `int_in_buffer` (address 2) is still allocated
afterwards, as is the URB (address 3): `skel_delete` frees only
`bulk_in_buffer` and the device. -/
theorem C2_int_in_buffer_still_allocated :
    (value_of (probe_then_disconnect env_ok [ep_int] 100 200 World.init)).map
      (fun r => (r.1, r.2.2.deleted, r.2.2.deregistered,
        (r.2.1.skel r.2.1.intfdata).int_in_buffer,
        r.2.2.heap.is_live (r.2.1.skel r.2.1.intfdata).int_in_buffer .kmalloc)) =
      some (0, 1, 1, 2, true) ∧
    (value_of (probe_then_disconnect env_ok [ep_int] 100 200 World.init)).map
      (fun r => r.2.2.heap.live) = some [(3, Kind.urb), (2, Kind.kmalloc)] := by
  decide

/-- C3: `skel_open` returns `-ENODEV` if and only if the interface has no
mapping to a device (the lookup fails or the interface data is null), and then
the world, hence the reference count, and the session are unchanged; when the
mapping exists it returns 0, the count has grown by exactly one and the session
holds the device.  After `skel_disconnect`, every `skel_open`, at once or after
any further events, returns `-ENODEV`.  In every state reached from a successful
attach, an open after Detach returns `-ENODEV` and an open before Detach
returns 0 with the count grown by one. -/
theorem C3_open_not_found (w : World) (f : file) :
    ((∃ w1 f1, skel_open w f = .ok (-ENODEV, w1, f1)) ↔
        (w.minor_registered = false ∨ w.intfdata = NULL)) ∧
    (w.minor_registered = false ∨ w.intfdata = NULL → skel_open w f = .ok (-ENODEV, w, f)) ∧
    (w.minor_registered = true → w.intfdata ≠ NULL →
      w.heap.is_live w.intfdata .kmalloc = true →
      ∃ w1, skel_open w f = .ok (0, w1, { private_data := w.intfdata }) ∧
        refcount w1 w.intfdata = refcount w w.intfdata + 1) ∧
    (∀ w1, skel_disconnect w = .ok w1 →
      skel_open w1 f = .ok (-ENODEV, w1, f) ∧
      ∀ files es s, run { world := w1, files := files, detached := true } es = .ok s →
        skel_open s.world f = .ok (-ENODEV, s.world, f)) ∧
    (∀ (env : ProbeEnv) (endpoints : List usb_endpoint_descriptor) (interface udev : Ptr)
        (w0 wa : World) (es : List Event) (s : Sys),
      skel_probe env endpoints interface udev w0 = .ok (0, wa) →
      refcount wa (w0.heap.last + 1) = 1 → w0.deleted = 0 →
      run { world := wa, files := [], detached := false } es = .ok s →
      (s.detached = true → skel_open s.world f = .ok (-ENODEV, s.world, f)) ∧
      (s.detached = false →
        ∃ w1, skel_open s.world f = .ok (0, w1, { private_data := w0.heap.last + 1 }) ∧
          refcount w1 (w0.heap.last + 1) = refcount s.world (w0.heap.last + 1) + 1)) := by
  refine ⟨⟨?_, ?_⟩, skel_open_no_mapping w f, ?_, ?_, ?_⟩
  · rintro ⟨w1, f1, h⟩
    by_contra hc
    have hr : w.minor_registered = true := by
      cases hb : w.minor_registered
      · exact absurd (Or.inl hb) hc
      · rfl
    have hp : w.intfdata ≠ NULL := fun hn => hc (Or.inr hn)
    unfold skel_open at h
    simp only [hr, hp, if_false] at h
    cases hk : kref_get w w.intfdata with
    | error x => simp [hk] at h
    | ok w2 =>
      simp [hk, ENODEV] at h
  · intro h
    exact ⟨w, f, skel_open_no_mapping w f h⟩
  · intro hr hp hl
    obtain ⟨w1, ho, o1, _⟩ := skel_open_mapping w f hr hp hl
    exact ⟨w1, ho, o1⟩
  · intro w1 hd
    have h1 := skel_disconnect_intfdata w w1 hd
    refine ⟨skel_open_no_mapping w1 f (Or.inr h1), ?_⟩
    intro files es s hs
    exact skel_open_no_mapping s.world f (Or.inr (run_intfdata_null es _ s h1 hs))
  · intro env endpoints interface udev w0 wa es s hprobe hcount hnew hs
    have hA := skel_probe_attached env endpoints interface udev w0 wa hprobe hcount hnew
    obtain ⟨_, hok⟩ := run_inv (w0.heap.last + 1) es _ (inv_of_attached wa _ hA)
    obtain ⟨hp, hcnt, _, hlive, hatt, hdet, _⟩ := hok s hs
    constructor
    · intro hd
      exact skel_open_no_mapping s.world f (Or.inr (hdet hd))
    · intro hd
      obtain ⟨hi, hm⟩ := hatt hd
      have hc0 : refcount s.world (w0.heap.last + 1) ≠ 0 := by
        rw [hcnt, hd]
        simp only [Bool.false_eq_true, if_false]
        omega
      obtain ⟨hl, _⟩ := hlive hc0
      obtain ⟨w1, ho, o1, _⟩ := skel_open_mapping s.world f hm (by rw [hi]; exact hp)
        (by rw [hi]; exact hl)
      rw [hi] at ho o1
      exact ⟨w1, ho, o1⟩

/-- C3 at the world left by a successful `skel_probe`: the open succeeds and
the count grows by one. -/
theorem C3_open_not_found_witness :
    ∃ w1, skel_open attached_world { private_data := NULL } =
        .ok (0, w1, { private_data := attached_world.intfdata }) ∧
      refcount w1 attached_world.intfdata = refcount attached_world attached_world.intfdata + 1 :=
  (C3_open_not_found attached_world { private_data := NULL }).2.2.1
    (by decide) (by decide) (by decide)

/-- C4: `skel_write` with `count = 0` returns 0 and leaves the world as it
was (no allocation, no submission).  With a non-empty input within the VFS
bound, a live device, and the URB allocation, the buffer allocation, the copy
from the caller and the submission all succeeding, it returns `count`, has
handed exactly one more URB to the USB core, a bulk-out transfer with
`skel_write_bulk_callback` as completion handler whose buffer holds the first
`count` bytes of the caller's data and whose length is `count`, and that buffer
is still allocated on return; it is the completion handler, run on that URB,
that frees it. -/
theorem C4_write_accepts (env : WriteEnv) (w : World) (f : file) (user_buffer : List Nat)
    (count : Nat) :
    (count = 0 → skel_write env w f user_buffer count = .ok (0, w)) ∧
    (0 < count → count ≤ MAX_RW_COUNT →
      f.private_data ≠ NULL → w.heap.is_live f.private_data .kmalloc = true →
      env.urb_alloc = true → env.buf_alloc = true → count ≤ user_buffer.length →
      env.submit = 0 →
      ∃ urb buf w1, skel_write env w f user_buffer count = .ok ((count : Int), w1) ∧
        w1.inflight =
          (urb, { pipe := { kind := .snd_bulk,
                            endpoint := (w.skel f.private_data).bulk_out_endpointAddr },
                  transfer_buffer := buf, transfer_buffer_length := count,
                  complete := .skel_write_bulk_callback,
                  transfer_flags := URB_NO_TRANSFER_DMA_MAP, interval := 0 }) :: w.inflight ∧
        w1.mem buf = user_buffer.take count ∧
        (w1.mem buf).length = count ∧
        w1.heap.is_live buf .coherent = true ∧
        w1.heap.live = (buf, .coherent) :: (urb, .urb) :: w.heap.live ∧
        ∃ w2, skel_write_bulk_callback w1
            { pipe := { kind := .snd_bulk,
                        endpoint := (w.skel f.private_data).bulk_out_endpointAddr },
              transfer_buffer := buf, transfer_buffer_length := count,
              complete := .skel_write_bulk_callback,
              transfer_flags := URB_NO_TRANSFER_DMA_MAP, interval := 0 } = .ok w2 ∧
          w2.heap.live = (urb, .urb) :: w.heap.live) := by
  constructor
  · intro h0
    subst h0
    simp [skel_write, to_ssize]
  · intro hpos hmax hp hl hu hb hc hs
    have hcount : count ≠ 0 := by omega
    have hl1 : (f.private_data, Kind.kmalloc) ∈ w.heap.live := by
      simpa [Heap.is_live] using hl
    have hp0 : f.private_data ≠ 0 := hp
    refine ⟨w.heap.last + 1, w.heap.last + 1 + 1, ?_⟩
    simp [skel_write, hcount, hu, hb, hs, usb_alloc_urb, usb_buffer_alloc, alloc_with,
      Heap.alloc, NULL, World.deref, Heap.is_live, hl1, hp0, copy_from_user, hc,
      usb_fill_bulk_urb, usb_submit_urb, usb_free_urb, World.write_mem,
      to_ssize_small count hmax, to_u32_to_int_small count hmax,
      skel_write_bulk_callback, usb_buffer_free, Heap.release, Except.map]

/-- C4 at the world left by a successful `skel_probe`, for the three bytes
`7, 8, 9`. -/
theorem C4_write_accepts_witness :
    ∃ urb buf w1, skel_write write_env_ok attached_world { private_data := 1 } [7, 8, 9] 3 =
        .ok (((3 : Nat) : Int), w1) ∧
      w1.inflight =
        (urb, { pipe := { kind := .snd_bulk,
                          endpoint := (attached_world.skel 1).bulk_out_endpointAddr },
                transfer_buffer := buf, transfer_buffer_length := 3,
                complete := .skel_write_bulk_callback,
                transfer_flags := URB_NO_TRANSFER_DMA_MAP, interval := 0 }) ::
          attached_world.inflight ∧
      w1.mem buf = [7, 8, 9].take 3 ∧
      (w1.mem buf).length = 3 ∧
      w1.heap.is_live buf .coherent = true ∧
      w1.heap.live = (buf, .coherent) :: (urb, .urb) :: attached_world.heap.live ∧
      ∃ w2, skel_write_bulk_callback w1
          { pipe := { kind := .snd_bulk,
                      endpoint := (attached_world.skel 1).bulk_out_endpointAddr },
            transfer_buffer := buf, transfer_buffer_length := 3,
            complete := .skel_write_bulk_callback,
            transfer_flags := URB_NO_TRANSFER_DMA_MAP, interval := 0 } = .ok w2 ∧
        w2.heap.live = (urb, .urb) :: attached_world.heap.live :=
  (C4_write_accepts write_env_ok attached_world { private_data := 1 } [7, 8, 9] 3).2
    (by decide) (by decide) (by decide) (by decide) (by decide) (by decide) (by decide)
    (by decide)

/-- C5: for every live device whose receive buffer has its declared capacity
`bulk_in_size`, and every requested length `count` no larger than that capacity
(and within the VFS bound), when the bulk-in transfer succeeds and the caller's
buffer can take `count` bytes, `skel_read` asks the hardware for
`min(bulk_in_size, count)` bytes, returns exactly `count`, makes the first
`count` bytes of the caller's buffer equal to the first `count` bytes of the
receive buffer, and leaves every byte at an index from `count` on unchanged. -/
theorem C5_read_exact (w : World) (f : file) (buffer : List Nat) (count : Nat)
    (hw : BulkOutcome)
    (hp : f.private_data ≠ NULL) (hl : w.heap.is_live f.private_data .kmalloc = true)
    (hsize : (w.mem (w.skel f.private_data).bulk_in_buffer).length =
      (w.skel f.private_data).bulk_in_size)
    (hcap : count ≤ (w.skel f.private_data).bulk_in_size) (hmax : count ≤ MAX_RW_COUNT)
    (hok : hw.status = 0) (hcopy : count ≤ buffer.length) :
    ∃ out w1, skel_read w f buffer count hw = .ok ((count : Int), w1, out) ∧
      w1.bulk_requests =
        ({ kind := .rcv_bulk, endpoint := (w.skel f.private_data).bulk_in_endpointAddr },
          min (w.skel f.private_data).bulk_in_size count) :: w.bulk_requests ∧
      out.length = buffer.length ∧
      (∀ i, i < count → out[i]? = (w1.mem (w.skel f.private_data).bulk_in_buffer)[i]?) ∧
      (∀ i, count ≤ i → out[i]? = buffer[i]?) := by
  have hmin : min (w.skel f.private_data).bulk_in_size count = count := Nat.min_eq_right hcap
  have hlen : (hw.data.take count ++
      (w.mem (w.skel f.private_data).bulk_in_buffer).drop (hw.data.take count).length).length =
      (w.skel f.private_data).bulk_in_size := by
    simp only [List.length_append, List.length_take, List.length_drop, hsize]
    omega
  refine ⟨(hw.data.take count ++
      (w.mem (w.skel f.private_data).bulk_in_buffer).drop (hw.data.take count).length).take count
      ++ buffer.drop count, ?_⟩
  have hnn : ¬ ((count : Int) < 0) := by omega
  have h1 : ¬ (buffer.length < count) := by omega
  have h2 : ¬ ((hw.data.take count ++
      (w.mem (w.skel f.private_data).bulk_in_buffer).drop (hw.data.take count).length).length
        < count) := by
    rw [hlen]; omega
  simp only [skel_read, deref_ok w f.private_data hp hl, usb_bulk_msg, hmin,
    to_int_small count hmax, hnn, if_false, Int.toNat_ofNat, hok, if_true, copy_to_user,
    World.write_mem, h1]
  rw [if_neg h2]
  have hT : ((hw.data.take count ++
      (w.mem (w.skel f.private_data).bulk_in_buffer).drop (hw.data.take count).length).take
        count).length = count := by
    rw [List.length_take, hlen]
    omega
  refine ⟨_, rfl, rfl, ?_, ?_, ?_⟩
  · rw [List.length_append, hT, List.length_drop]
    omega
  · intro i hi
    rw [List.getElem?_append_left (by rw [hT]; exact hi), List.getElem?_take_of_lt hi]
    simp
  · intro i hi
    rw [List.getElem?_append_right (by rw [hT]; exact hi), hT, List.getElem?_drop]
    congr 1
    omega

/-- C5 at a device with a four-byte receive buffer: two bytes are requested,
the hardware delivers `1, 2`, the caller's buffer holds five bytes. -/
theorem C5_read_exact_witness :
    ∃ out w1, skel_read read_world { private_data := 1 } [5, 5, 5, 5, 5] 2
        { status := 0, data := [1, 2] } = .ok (((2 : Nat) : Int), w1, out) ∧
      w1.bulk_requests =
        ({ kind := .rcv_bulk,
           endpoint := (read_world.skel ({ private_data := 1 } : file).private_data).bulk_in_endpointAddr },
          min (read_world.skel ({ private_data := 1 } : file).private_data).bulk_in_size 2) ::
          read_world.bulk_requests ∧
      out.length = [5, 5, 5, 5, 5].length ∧
      (∀ i, i < 2 → out[i]? =
        (w1.mem (read_world.skel ({ private_data := 1 } : file).private_data).bulk_in_buffer)[i]?) ∧
      (∀ i, 2 ≤ i → out[i]? = [5, 5, 5, 5, 5][i]?) :=
  C5_read_exact read_world { private_data := 1 } [5, 5, 5, 5, 5] 2 { status := 0, data := [1, 2] }
    (by decide) (by decide) (by decide) (by decide) (by decide) rfl (by decide)

/-- C6: for every pair of byte values at offsets 1 (horizontal) and 2
(vertical) of the transfer buffer, the direction report of
`urb_complete_callback` contains LEFT exactly when horizontal > 128, RIGHT
exactly when 0 < horizontal <= 128, UP exactly when vertical > 128, DOWN
exactly when 0 < vertical <= 128, and is empty exactly when both are 0; so
horizontal 130 gives LEFT, horizontal 50 gives RIGHT, vertical 200 gives UP and
vertical 10 gives DOWN. -/
theorem C6_direction_report :
    (∀ (b0 horizontal vertical : Nat) (rest : List Nat),
      ∃ d, urb_complete_callback_direction (b0 :: horizontal :: vertical :: rest) = some d ∧
        (is_substr lbl_LEFT d = true ↔ horizontal > 128) ∧
        (is_substr lbl_RIGHT d = true ↔ 0 < horizontal ∧ horizontal ≤ 128) ∧
        (is_substr lbl_UP d = true ↔ vertical > 128) ∧
        (is_substr lbl_DOWN d = true ↔ 0 < vertical ∧ vertical ≤ 128) ∧
        (d = [] ↔ horizontal = 0 ∧ vertical = 0)) ∧
    urb_complete_callback_direction [0, 130, 0, 0] = some ['L', 'E', 'F', 'T', ' '] ∧
    urb_complete_callback_direction [0, 50, 0, 0] = some ['R', 'I', 'G', 'H', 'T', ' '] ∧
    urb_complete_callback_direction [0, 0, 200, 0] = some ['U', 'P', ' '] ∧
    urb_complete_callback_direction [0, 0, 10, 0] = some ['D', 'O', 'W', 'N', ' '] ∧
    urb_complete_callback_direction [0, 0, 0, 0] = some [] := by
  refine ⟨?_, by decide, by decide, by decide, by decide, by decide⟩
  intro b0 horizontal vertical rest
  refine ⟨direction_of horizontal vertical,
    urb_complete_callback_direction_cons b0 horizontal vertical rest, ?_⟩
  rcases direction_of_cases horizontal vertical with
    ⟨hv, hh, e⟩ | ⟨hv, h0, hh, e⟩ | ⟨hv, hh, e⟩ | ⟨v0, hv, hh, e⟩ | ⟨v0, hv, h0, hh, e⟩ |
    ⟨v0, hv, hh, e⟩ | ⟨hv, hh, e⟩ | ⟨hv, h0, hh, e⟩ | ⟨hv, hh, e⟩ <;>
  rw [e] <;>
  refine ⟨⟨fun a => ?_, fun a => ?_⟩, ⟨fun a => ?_, fun a => ?_⟩, ⟨fun a => ?_, fun a => ?_⟩,
    ⟨fun a => ?_, fun a => ?_⟩, ⟨fun a => ?_, fun a => ?_⟩⟩ <;>
  first
    | omega
    | decide
    | exact absurd a (by decide)

/-- C7, as stated, fails on the vertical axis: it is not the case that every
vertical value in (0,128] gives the label UP.  At vertical = 10 the report is
`DOWN `. -/
theorem C7_vertical_counterexample :
    ¬ (∀ vertical : Nat, 0 < vertical → vertical ≤ 128 →
        ∃ d, urb_complete_callback_direction [0, 0, vertical, 0] = some d ∧
          is_substr lbl_UP d = true) := by
  intro h
  obtain ⟨d, hd, hup⟩ := h 10 (by decide) (by decide)
  have e : urb_complete_callback_direction [0, 0, 10, 0] = some ['D', 'O', 'W', 'N', ' '] := by
    decide
  rw [e] at hd
  cases hd
  exact absurd hup (by decide)

/-- C7 (amended): for every byte value on each axis, `urb_complete_callback`
maps a horizontal value in (0,128] to RIGHT and one in (128,255] to LEFT, maps
a vertical value in (0,128] to DOWN and one in (128,255] to UP, and maps 0 to no
label on that axis. -/
theorem C7_axis_labels (b0 horizontal vertical : Nat) (rest : List Nat)
    (hh : horizontal ≤ 255) (hv : vertical ≤ 255) :
    ∃ d, urb_complete_callback_direction (b0 :: horizontal :: vertical :: rest) = some d ∧
      (0 < horizontal ∧ horizontal ≤ 128 →
        is_substr lbl_RIGHT d = true ∧ is_substr lbl_LEFT d = false) ∧
      (128 < horizontal ∧ horizontal ≤ 255 →
        is_substr lbl_LEFT d = true ∧ is_substr lbl_RIGHT d = false) ∧
      (horizontal = 0 → is_substr lbl_LEFT d = false ∧ is_substr lbl_RIGHT d = false) ∧
      (0 < vertical ∧ vertical ≤ 128 →
        is_substr lbl_DOWN d = true ∧ is_substr lbl_UP d = false) ∧
      (128 < vertical ∧ vertical ≤ 255 →
        is_substr lbl_UP d = true ∧ is_substr lbl_DOWN d = false) ∧
      (vertical = 0 → is_substr lbl_UP d = false ∧ is_substr lbl_DOWN d = false) := by
  refine ⟨direction_of horizontal vertical,
    urb_complete_callback_direction_cons b0 horizontal vertical rest, ?_⟩
  rcases direction_of_cases horizontal vertical with
    ⟨v0, h0, e⟩ | ⟨v0, h0, h1, e⟩ | ⟨v0, h0, e⟩ | ⟨v0, v1, h0, e⟩ | ⟨v0, v1, h0, h1, e⟩ |
    ⟨v0, v1, h0, e⟩ | ⟨v0, h0, e⟩ | ⟨v0, h0, h1, e⟩ | ⟨v0, h0, e⟩ <;>
  rw [e] <;>
  refine ⟨fun a => ?_, fun a => ?_, fun a => ?_, fun a => ?_, fun a => ?_, fun a => ?_⟩ <;>
  first
    | (exfalso; omega)
    | decide

/-- C7 (amended) at the buffer `[0, 50, 200, 0]`: RIGHT and UP. -/
theorem C7_axis_labels_witness :
    ∃ d, urb_complete_callback_direction [0, 50, 200, 0] = some d ∧
      (0 < 50 ∧ 50 ≤ 128 →
        is_substr lbl_RIGHT d = true ∧ is_substr lbl_LEFT d = false) ∧
      (128 < 50 ∧ 50 ≤ 255 →
        is_substr lbl_LEFT d = true ∧ is_substr lbl_RIGHT d = false) ∧
      (50 = 0 → is_substr lbl_LEFT d = false ∧ is_substr lbl_RIGHT d = false) ∧
      (0 < 200 ∧ 200 ≤ 128 →
        is_substr lbl_DOWN d = true ∧ is_substr lbl_UP d = false) ∧
      (128 < 200 ∧ 200 ≤ 255 →
        is_substr lbl_UP d = true ∧ is_substr lbl_DOWN d = false) ∧
      (200 = 0 → is_substr lbl_UP d = false ∧ is_substr lbl_DOWN d = false) :=
  C7_axis_labels 0 50 200 [0] (by decide) (by decide)

/-- C8 fails on the code: a three-byte `skel_write` in which `usb_alloc_urb`
fails does not return `-ENOMEM`, nor any value: the `error:` label reads
`urb->transfer_dma` through the null `urb`. -/
theorem C8_urb_alloc_failure_does_not_return :
    fault_of (skel_write write_env_urb_fails attached_world { private_data := 1 } [7, 8, 9] 3) =
      some Fault.null_deref ∧
    ∀ r, skel_write write_env_urb_fails attached_world { private_data := 1 } [7, 8, 9] 3 ≠
      .ok r := by
  have h : fault_of
      (skel_write write_env_urb_fails attached_world { private_data := 1 } [7, 8, 9] 3) =
      some Fault.null_deref := by decide
  refine ⟨h, ?_⟩
  intro r hr
  rw [hr] at h
  simp [fault_of] at h

/-- C9 fails on the code: `skel_probe` on an interface with two interrupt
endpoints, where the receive-buffer allocation for the second one fails after
the first URB was submitted with result 0.  The probe leaves through `error:`,
the teardown runs and the device (address 1) is freed, no node is registered and
no mapping is set, and yet the value returned is 0. -/
theorem C9_probe_failure_path_returns_zero :
    (value_of (skel_probe env_second_buffer_fails [ep_int, ep_int] 100 200 World.init)).map
      (fun r => (r.1, r.2.deleted, r.2.minor_registered, r.2.intfdata,
        r.2.heap.is_live 1 .kmalloc, refcount r.2 1)) =
      some (0, 1, false, NULL, false, 0) := by
  decide

/-- C10 fails on the code: in a three-byte `skel_write`, when `usb_alloc_urb`
fails the `error:` label reads a field of the null `urb`; when the copy from
the caller faults (only two bytes are readable), and likewise when
`usb_submit_urb` fails, the buffer is freed by `usb_buffer_free` and then freed
again by `kfree`. -/
theorem C10_error_exit_faults :
    fault_of (skel_write write_env_urb_fails attached_world { private_data := 1 } [7, 8, 9] 3) =
      some Fault.null_deref ∧
    fault_of (skel_write write_env_ok attached_world { private_data := 1 } [7, 8] 3) =
      some Fault.bad_free ∧
    fault_of (skel_write write_env_submit_fails attached_world { private_data := 1 } [7, 8, 9] 3) =
      some Fault.bad_free := by
  decide

end UsbSkel
